import Mathlib

/-!
Verification of the decentralized price-oracle workshop repository.

The repository has two halves:
* an on-chain `Oracle` contract (registry of reporter nodes, per-coin
  rounds, price submissions, quorum-triggered finalization); its Solidity
  source is described field-by-field in the workshop README and exercised
  by the Foundry test suites, and is modelled here from that specification;
* an off-chain Go node (`Node/main.go`, `config.go`) whose registration
  logic, submission loop and configuration loader are embedded directly
  from the Go source.

Machine integers (`uint256`) are modelled as `Nat`: all quantities in the
contract (round ids, counts, prices, timestamps) only ever grow by small
increments from 0, far from 2^256, so wrap-around is unreachable and the
`Nat` model is faithful.  A Solidity `revert` is modelled as the `.error`
branch of `Except String`: a reverted call discards every write of the
call, which the embedding renders by returning no state at all.
-/

/-- Pointwise update of a one-argument map, modelling assignment to a
Solidity `mapping` at one key. -/
def upd1 {α β : Type} [DecidableEq α] (f : α → β) (a : α) (v : β) : α → β :=
  fun x => if x = a then v else f x

/-- Pointwise update of a three-argument map, modelling assignment to a
nested Solidity `mapping` at one key triple. -/
def upd3 {α β γ δ : Type} [DecidableEq α] [DecidableEq β] [DecidableEq γ]
    (f : α → β → γ → δ) (a : α) (b : β) (c : γ) (v : δ) : α → β → γ → δ :=
  fun x y z => if x = a ∧ y = b ∧ z = c then v else f x y z

namespace Oracle

/-- Reporter identities (Ethereum addresses) are modelled as `Nat`. -/
abbrev Addr := Nat

/-- Coin identifiers are strings, exactly as in the contract. -/
abbrev Coin := String

/-- Revert message of `addNode` for a caller that is already a node. -/
def errNodeExists : String := "Node already exists"

/-- Revert message of `removeNode` for a caller that is not a node. -/
def errNodeMissing : String := "Node does not exist"

/-- Revert message of `submitPrice` for a caller that is not a node. -/
def errNotANode : String := "Not a node"

/-- Revert message of `submitPrice` for a duplicate submission. -/
def errAlreadySubmitted : String := "Already submitted for this round"

/-- The coin identifier used by the scenario tests. -/
def btc : Coin := "BTC"

/-- Modelled from the spec: the `Round` struct of the missing `Oracle.sol`
(README Step 2.1): current round number, number of submissions received in
the round, and the timestamp of the last finalization. -/
structure Round where
  id : Nat
  totalSubmissionCount : Nat
  lastUpdatedAt : Nat
deriving DecidableEq

/-- Modelled from the spec: the storage of the missing `Oracle.sol`
(README Steps 1.2 and 2.2): the `nodes` array, the `isNode` membership
mapping, per-coin `rounds`, the nested `nodePrices` and `hasSubmitted`
mappings, and the finalized `currentPrices`.  `events` records every
`PriceUpdated (coin, price, roundId)` emission in order. -/
structure State where
  nodes : List Addr
  isNode : Addr → Bool
  rounds : Coin → Round
  nodePrices : Coin → Nat → Addr → Nat
  hasSubmitted : Coin → Nat → Addr → Bool
  currentPrices : Coin → Nat
  events : List (Coin × Nat × Nat)

/-- The freshly deployed contract: empty registry, and every mapping at
its Solidity default value (round `⟨0,0,0⟩`, prices 0, flags false). -/
def initState : State where
  nodes := []
  isNode := fun _ => false
  rounds := fun _ => ⟨0, 0, 0⟩
  nodePrices := fun _ _ _ => 0
  hasSubmitted := fun _ _ _ => false
  currentPrices := fun _ => 0
  events := []

/-- Modelled from the spec: `getQuorum` of the missing `Oracle.sol`
(README Step 1.4), as a function of the registry size `n`: below 3 nodes
the quorum is pinned at 3, otherwise it is `(2n + 2) / 3` in integer
division. -/
def quorum (n : Nat) : Nat :=
  if n < 3 then 3 else (n * 2 + 2) / 3

/-- `getQuorum` reads the current registry size. -/
def getQuorum (s : State) : Nat :=
  quorum s.nodes.length

/-- Modelled from the spec: `addNode` of the missing `Oracle.sol`
(README Step 1.5): revert `"Node already exists"` for a current member,
otherwise mark the caller in `isNode` and append it to `nodes`. -/
def addNode (s : State) (caller : Addr) : Except String State :=
  if s.isNode caller then .error errNodeExists
  else .ok { s with
    isNode := upd1 s.isNode caller true
    nodes := s.nodes ++ [caller] }

/-- Swap-with-last-then-truncate removal used by `removeNode`:
`l[i] = l[l.length - 1]; l.pop()`. -/
def swapRemove (l : List Addr) (i : Nat) : List Addr :=
  (l.set i (l.getLastD 0)).dropLast

/-- Modelled from the spec: `removeNode` of the missing `Oracle.sol`
(README Step 1.6): revert `"Node does not exist"` for a non-member,
otherwise clear the caller in `isNode` and remove it from `nodes` by
swapping the last element into its index and popping. -/
def removeNode (s : State) (caller : Addr) : Except String State :=
  if s.isNode caller then
    .ok { s with
      isNode := upd1 s.isNode caller false
      nodes := swapRemove s.nodes (s.nodes.indexOf caller) }
  else .error errNodeMissing

/-- Modelled from the spec: `_finalizePrice` of the missing `Oracle.sol`
(README Step 3.2): loop over the **current** `nodes` array, summing the
submitted prices of the members that have `hasSubmitted` for this coin and
round; if at least one valid submission exists, store the integer-division
average in `currentPrices` and emit `PriceUpdated`; then advance the round
id, reset the submission count and stamp `lastUpdatedAt`. -/
def finalizePrice (s : State) (coin : Coin) (roundId : Nat) (now : Nat) : State :=
  let submitters := s.nodes.filter (fun a => s.hasSubmitted coin roundId a)
  let count := submitters.length
  let total := (submitters.map (fun a => s.nodePrices coin roundId a)).sum
  let s1 :=
    if count = 0 then s
    else { s with
      currentPrices := upd1 s.currentPrices coin (total / count)
      events := s.events ++ [(coin, total / count, roundId)] }
  { s1 with rounds := upd1 s1.rounds coin ⟨roundId + 1, 0, now⟩ }

/-- Modelled from the spec: `submitPrice` of the missing `Oracle.sol`
(README Step 3.1): revert `"Not a node"` for a non-member caller; revert
`"Already submitted for this round"` on a duplicate; otherwise record the
price, set the submitted flag, increment the round's submission count, and
finalize in the same step when the count reaches `getQuorum()`.  `now` is
`block.timestamp`. -/
def submitPrice (s : State) (caller : Addr) (coin : Coin) (price : Nat) (now : Nat) :
    Except String State :=
  if s.isNode caller then
    let roundId := (s.rounds coin).id
    if s.hasSubmitted coin roundId caller then
      .error errAlreadySubmitted
    else
      let newCount := (s.rounds coin).totalSubmissionCount + 1
      let s1 : State := { s with
        nodePrices := upd3 s.nodePrices coin roundId caller price
        hasSubmitted := upd3 s.hasSubmitted coin roundId caller true
        rounds := upd1 s.rounds coin
          { s.rounds coin with totalSubmissionCount := newCount } }
      if newCount ≥ getQuorum s1 then .ok (finalizePrice s1 coin roundId now)
      else .ok s1
  else .error errNotANode

/-- Extract the post-state of an `.ok` chain step; an `.error` collapses
to `initState`, so a silently swallowed revert cannot fake a scenario's
expected final state. -/
def okState (r : Except String State) : State :=
  match r with
  | .ok s => s
  | .error _ => initState

/-! Scenario states shared by the test-derived claims.  Addresses 1, 2, 3,
4 play the roles of `node1` … `node4` of the Foundry tests. -/

/-- One registered node (address 1). -/
def reg1 : State := okState (addNode initState 1)

/-- Three registered nodes (addresses 1, 2, 3); quorum 2. -/
def reg3 : State := okState (addNode (okState (addNode reg1 2)) 3)

/-- Four registered nodes (addresses 1, 2, 3, 4); quorum 3. -/
def reg4 : State := okState (addNode reg3 4)

/-- Three nodes, node 1 has submitted 50000 for BTC in round 0. -/
def c2mid : State := okState (submitPrice reg3 1 btc 50000 0)

/-- One node, node 1 has submitted 50000 for BTC in round 0. -/
def c5mid : State := okState (submitPrice reg1 1 btc 50000 0)

/-- Four nodes, node 1 has submitted 50000 for BTC in round 0. -/
def c6one : State := okState (submitPrice reg4 1 btc 50000 0)

/-- Four nodes, nodes 1 and 2 have submitted 50000 and 51000 for BTC in
round 0 (2 submissions, quorum 3: no finalization yet). -/
def c6two : State := okState (submitPrice c6one 2 btc 51000 0)

/-- Four nodes, node 1 has submitted 100 for BTC in round 0. -/
def c3sub : State := okState (submitPrice reg4 1 btc 100 0)

/-- Node 1 unregistered after submitting: its BTC round-0 record remains,
but it is no longer in `nodes` (now `[4, 2, 3]`, quorum 2). -/
def c3rm : State := okState (removeNode c3sub 1)

end Oracle

namespace NodeApp

/-!
Shallow embedding of the Go reporter node (`Node/main.go`, `config.go`).
The blockchain and HTTP environments are passed explicitly: every external
call site of the Go code becomes a field holding that call's result.
-/

/-- Result of `bind.WaitMined`: a mined receipt.  `status = 1` means the
transaction succeeded; any other status means it reverted. -/
structure Receipt where
  status : Nat
  blockNumber : Nat
  gasUsed : Nat
deriving DecidableEq

/-- The outcomes of the external calls made by `EnsureRegistered`
(`main.go` lines 159–225), in program order: `Oracle.isNode`,
`SuggestGasPrice`, `PendingNonceAt`, `ChainID`,
`NewKeyedTransactorWithChainID`, the `addNode` transaction submission, and
`WaitMined`. -/
structure ChainEnv where
  isNodeQuery : Except String Bool
  suggestGasPrice : Except String Nat
  pendingNonce : Except String Nat
  chainId : Except String Nat
  newTransactor : Except String Unit
  addNodeTransact : Except String Nat
  waitMined : Except String Receipt

/-- Error produced when the registration transaction is mined but marked
reverted (`main.go` line 221). -/
def errRegistrationReverted : String := "registration transaction reverted"

/-- How `EnsureRegistered` ended: the node was already a member (no
transaction was built or sent), or a registration transaction confirmed. -/
inductive RegResult where
  | alreadyRegistered
  | newlyRegistered (r : Receipt)
deriving DecidableEq

/-- `EnsureRegistered` from `main.go`: query `isNode`; if already
registered return at once; otherwise gather transaction parameters, send
`addNode`, wait for the receipt, and fail unless its status is 1.  Every
failed external call aborts with its error (the Go code returns the
wrapped error at each `if err != nil`). -/
def ensureRegistered (env : ChainEnv) : Except String RegResult :=
  match env.isNodeQuery with
  | Except.error e => Except.error e
  | Except.ok true => Except.ok RegResult.alreadyRegistered
  | Except.ok false =>
    match env.suggestGasPrice with
    | Except.error e => Except.error e
    | Except.ok _ =>
      match env.pendingNonce with
      | Except.error e => Except.error e
      | Except.ok _ =>
        match env.chainId with
        | Except.error e => Except.error e
        | Except.ok _ =>
          match env.newTransactor with
          | Except.error e => Except.error e
          | Except.ok _ =>
            match env.addNodeTransact with
            | Except.error e => Except.error e
            | Except.ok _ =>
              match env.waitMined with
              | Except.error e => Except.error e
              | Except.ok receipt =>
                if receipt.status = 1 then Except.ok (RegResult.newlyRegistered receipt)
                else Except.error errRegistrationReverted

/-- The launch path of one agent in `main` (`main.go` lines 386–410):
`NewOracleNode` runs `EnsureRegistered` and fails if it fails; on failure
the goroutine logs and returns, so `StartPriceSubmissionLoop` is reached
exactly when registration succeeded. -/
def agentStartsLoop (env : ChainEnv) : Bool :=
  match ensureRegistered env with
  | Except.ok _ => true
  | Except.error _ => false

/-- An environment whose `isNode` query answers true; the transaction
fields are arbitrary. -/
def envAlready : ChainEnv :=
  ⟨Except.ok true, Except.ok 1, Except.ok 0, Except.ok 31337, Except.ok (),
   Except.ok 0, Except.ok ⟨1, 2, 96547⟩⟩

/-- An environment for an unregistered node whose registration transaction
mines with status 0 (reverted). -/
def envReverted : ChainEnv :=
  ⟨Except.ok false, Except.ok 1, Except.ok 0, Except.ok 31337, Except.ok (),
   Except.ok 0, Except.ok ⟨0, 2, 96547⟩⟩

/-- One observable event of the submission loop: the interval ticker fired,
or the run context was cancelled.  `StartPriceSubmissionLoop` selects
between exactly these two channels. -/
inductive LoopEvent where
  | tick
  | cancel
deriving DecidableEq

/-- What a run of the submission loop produced: one log entry per per-coin
submission attempt (tick index, coin, success flag), and whether the loop
returned. -/
structure LoopRun where
  logs : List (Nat × String × Bool)
  returned : Bool

/-- One pass over the configured coin list (the body of each tick of
`StartPriceSubmissionLoop`): every coin is attempted; a failed
`SubmitPrice` is logged and the pass moves to the next coin. -/
def runCoinPass (coins : List String) (outcome : String → Except String Unit)
    (tickIdx : Nat) : List (Nat × String × Bool) :=
  coins.map (fun c => (tickIdx, c, (outcome c).isOk))

/-- The `for { select … }` part of `StartPriceSubmissionLoop`, driven by a
finite observation `events` of the ticker/cancellation channels;
`outcomes tick coin` is the result `SubmitPrice` would produce at that
point.  A `cancel` event makes the loop return; a `tick` event runs one
coin pass and continues; if the observation ends the loop is still
running (`returned = false`). -/
def runLoopEvents (coins : List String) (outcomes : Nat → String → Except String Unit) :
    List LoopEvent → Nat → LoopRun
  | [], _ => ⟨[], false⟩
  | LoopEvent.cancel :: _, _ => ⟨[], true⟩
  | LoopEvent.tick :: rest, i =>
    let r := runLoopEvents coins outcomes rest (i + 1)
    ⟨runCoinPass coins (outcomes i) i ++ r.logs, r.returned⟩

/-- `StartPriceSubmissionLoop` from `main.go`: one immediate coin pass on
startup (tick index 0), then the event-driven loop. -/
def startPriceSubmissionLoop (coins : List String)
    (outcomes : Nat → String → Except String Unit) (events : List LoopEvent) : LoopRun :=
  let r := runLoopEvents coins outcomes events 1
  ⟨runCoinPass coins (outcomes 0) 0 ++ r.logs, r.returned⟩

/-- The node configuration (`config.go`): RPC endpoint, contract address,
signing key, tracked coin list, submission interval in seconds, HTTP port,
CoinGecko API key. -/
structure Config where
  rpcUrl : String
  contractAddress : String
  privateKey : String
  coins : List String
  submissionInterval : Nat
  httpPort : String
  coingeckoApiKey : String
deriving DecidableEq

/-- Environment variable names read by `LoadConfig`. -/
def keyRpcUrl : String := "RPC_URL"

/-- Environment variable name for the contract address. -/
def keyContractAddress : String := "CONTRACT_ADDRESS"

/-- Environment variable name for the private key. -/
def keyPrivateKey : String := "PRIVATE_KEY"

/-- Environment variable name for the HTTP port. -/
def keyHttpPort : String := "HTTP_PORT"

/-- Default RPC endpoint (local Anvil/Hardhat). -/
def defaultRpcUrl : String := "http://localhost:8545"

/-- Default contract address (first Anvil deployment). -/
def defaultContractAddress : String := "0x5FbDB2315678afecb367f032d93F642f64180aa3"

/-- Default Anvil test private key. -/
def defaultPrivateKey : String :=
  "ac0974bec39a17e36ba4a6b4d238ff944bacb478cbed5efcae784d7bf4f2ff80"

/-- Default HTTP listening port. -/
def defaultHttpPort : String := ":8080"

/-- The single tracked CoinGecko coin id. -/
def coinEthereum : String := "ethereum"

/-- The `os.Getenv`-then-default pattern of `LoadConfig`: Go's `Getenv`
returns the empty string for an unset variable, and `LoadConfig` replaces
an empty value by the default. -/
def getWithDefault (getenv : String → String) (key dflt : String) : String :=
  if getenv key = "" then dflt else getenv key

/-- `LoadConfig` from `config.go`, with the process environment passed in
as `getenv`.  Four fields come from the environment (with defaults); the
coin list and the submission interval are hard-coded, and the API key
field is left at its zero value. -/
def loadConfig (getenv : String → String) : Config where
  rpcUrl := getWithDefault getenv keyRpcUrl defaultRpcUrl
  contractAddress := getWithDefault getenv keyContractAddress defaultContractAddress
  privateKey := getWithDefault getenv keyPrivateKey defaultPrivateKey
  coins := [coinEthereum]
  submissionInterval := 20
  httpPort := getWithDefault getenv keyHttpPort defaultHttpPort
  coingeckoApiKey := ""

/-- An environment that sets every variable to the same non-empty value. -/
def customValue : String := "custom"

/-- The environment assigning `customValue` to every variable. -/
def envAllSet : String → String := fun _ => customValue

/-- The empty environment (every `Getenv` answers the empty string). -/
def envUnset : String → String := fun _ => ""

end NodeApp

/-! Helper lemmas. -/

@[simp] theorem upd1_same {α β : Type} [DecidableEq α] (f : α → β) (a : α) (v : β) :
    upd1 f a v a = v := by simp [upd1]

theorem upd1_ne {α β : Type} [DecidableEq α] (f : α → β) (a x : α) (v : β)
    (h : x ≠ a) : upd1 f a v x = f x := by simp [upd1, h]

@[simp] theorem upd3_same {α β γ δ : Type} [DecidableEq α] [DecidableEq β] [DecidableEq γ]
    (f : α → β → γ → δ) (a : α) (b : β) (c : γ) (v : δ) :
    upd3 f a b c v a b c = v := by simp [upd3]

theorem upd3_fix2 {α β γ δ : Type} [DecidableEq α] [DecidableEq β] [DecidableEq γ]
    (f : α → β → γ → δ) (a : α) (b : β) (c : γ) (v : δ) (z : γ) :
    upd3 f a b c v a b z = if z = c then v else f a b z := by
  simp [upd3]

/-- Inserting one fresh `true` flag at a member `c` of a duplicate-free
list grows the filtered sublist by exactly `c`: the count rises by one and
the mapped sum rises by `c`'s value. -/
theorem filter_flag_insert (l : List Nat) (c : Nat) (p : Nat → Bool) (g : Nat → Nat) (v : Nat)
    (hnd : l.Nodup) (hmem : c ∈ l) (hpc : p c = false) :
    (l.filter (fun a => if a = c then true else p a)).length = (l.filter p).length + 1 ∧
    ((l.filter (fun a => if a = c then true else p a)).map
        (fun a => if a = c then v else g a)).sum = v + ((l.filter p).map g).sum := by
  induction l with
  | nil => simp at hmem
  | cons x xs ih =>
    rcases List.nodup_cons.mp hnd with ⟨hx, hnd'⟩
    rcases List.mem_cons.mp hmem with hcx | hc
    · subst hcx
      have hfil : xs.filter (fun a => if a = c then true else p a) = xs.filter p := by
        apply List.filter_congr
        intro a ha
        have hax : a ≠ c := fun h => hx (h ▸ ha)
        simp [hax]
      have hmap : (xs.filter p).map (fun a => if a = c then v else g a)
          = (xs.filter p).map g := by
        apply List.map_congr_left
        intro a ha
        have hax : a ≠ c := fun h => hx (h ▸ (List.mem_filter.mp ha).1)
        simp [hax]
      rw [List.filter_cons, List.filter_cons, if_pos (by simp), if_neg (by simp [hpc]), hfil]
      refine ⟨by simp, ?_⟩
      simp [hmap]
    · have hxc : x ≠ c := fun h => hx (h ▸ hc)
      obtain ⟨ih1, ih2⟩ := ih hnd' hc
      rw [List.filter_cons, List.filter_cons]
      cases hpx : p x with
      | true =>
        rw [if_pos (by simp [hxc, hpx]), if_pos (by simp [hpx])]
        refine ⟨?_, ?_⟩
        · simp only [List.length_cons, ih1]
        · simp only [List.map_cons, List.sum_cons, if_neg hxc, ih2]
          omega
      | false =>
        rw [if_neg (by simp [hxc, hpx]), if_neg (by simp [hpx])]
        exact ⟨ih1, ih2⟩

/-- The behaviour of `submitPrice` when the submission reaches quorum:
the round finalizes in the same step — the published value becomes the
floor-average of the true submissions of the current members (the new one
included), the `PriceUpdated` event is appended, and the round advances
with a reset count. -/
theorem submit_quorum_general (s : Oracle.State) (caller : Oracle.Addr) (coin : Oracle.Coin)
    (price now : Nat)
    (hreg : s.isNode caller = true)
    (hnd : s.nodes.Nodup)
    (hmem : caller ∈ s.nodes)
    (hsub : s.hasSubmitted coin (s.rounds coin).id caller = false)
    (hq : Oracle.getQuorum s ≤ (s.rounds coin).totalSubmissionCount + 1) :
    ∃ s' : Oracle.State,
      Oracle.submitPrice s caller coin price now = .ok s' ∧
      s'.currentPrices coin =
        (price + ((s.nodes.filter (fun a => s.hasSubmitted coin (s.rounds coin).id a)).map
            (fun a => s.nodePrices coin (s.rounds coin).id a)).sum) /
          ((s.nodes.filter (fun a => s.hasSubmitted coin (s.rounds coin).id a)).length + 1) ∧
      s'.events = s.events ++ [(coin,
        (price + ((s.nodes.filter (fun a => s.hasSubmitted coin (s.rounds coin).id a)).map
            (fun a => s.nodePrices coin (s.rounds coin).id a)).sum) /
          ((s.nodes.filter (fun a => s.hasSubmitted coin (s.rounds coin).id a)).length + 1),
        (s.rounds coin).id)] ∧
      s'.rounds coin = ⟨(s.rounds coin).id + 1, 0, now⟩ := by
  set rid := (s.rounds coin).id with hrid
  set s1 : Oracle.State := { s with
    nodePrices := upd3 s.nodePrices coin rid caller price
    hasSubmitted := upd3 s.hasSubmitted coin rid caller true
    rounds := upd1 s.rounds coin
      { s.rounds coin with totalSubmissionCount := (s.rounds coin).totalSubmissionCount + 1 } }
    with hs1
  have hstep : Oracle.submitPrice s caller coin price now =
      .ok (Oracle.finalizePrice s1 coin rid now) := by
    rw [Oracle.submitPrice, if_pos hreg, if_neg (by simp [hsub, hrid])]
    rw [if_pos (by simpa [Oracle.getQuorum, hs1] using hq)]
  have hpred : (fun a => upd3 s.hasSubmitted coin rid caller true coin rid a)
      = (fun a => if a = caller then true else s.hasSubmitted coin rid a) := by
    funext a
    rw [upd3_fix2]
  have hmapfn : (fun a => upd3 s.nodePrices coin rid caller price coin rid a)
      = (fun a => if a = caller then price else s.nodePrices coin rid a) := by
    funext a
    rw [upd3_fix2]
  obtain ⟨hlen, hsum⟩ := filter_flag_insert s.nodes caller
    (fun a => s.hasSubmitted coin rid a) (fun a => s.nodePrices coin rid a) price hnd hmem hsub
  refine ⟨Oracle.finalizePrice s1 coin rid now, hstep, ?_, ?_, ?_⟩
  all_goals rw [Oracle.finalizePrice]
  all_goals simp only [hs1, hpred, hmapfn, hlen, hsum]
  all_goals first
    | rfl
    | (rw [if_neg (by omega)]; simp)

/-- The agent's submission loop is started exactly when `NewOracleNode`
(and hence `EnsureRegistered`) succeeded. -/
theorem agentStartsLoop_eq (env : NodeApp.ChainEnv) :
    NodeApp.agentStartsLoop env = (NodeApp.ensureRegistered env).isOk := by
  unfold NodeApp.agentStartsLoop
  cases NodeApp.ensureRegistered env <;> rfl

/-- The event-driven part of the submission loop returns exactly when a
cancellation event occurs, whatever the per-submission outcomes are. -/
theorem runLoopEvents_returned (coins : List String)
    (outcomes : Nat → String → Except String Unit) (events : List NodeApp.LoopEvent) :
    ∀ i : Nat, (NodeApp.runLoopEvents coins outcomes events i).returned = true ↔
      NodeApp.LoopEvent.cancel ∈ events := by
  induction events with
  | nil => intro i; simp [NodeApp.runLoopEvents]
  | cons e rest ih =>
    intro i
    cases e with
    | cancel => simp [NodeApp.runLoopEvents]
    | tick => simp [NodeApp.runLoopEvents, ih]

/-! Claim theorems. -/

/-- Claim C1: the quorum function returns 3 whenever the registry size is
below 3, and `(2n + 2) / 3` (integer division) for `n ≥ 3`; the listed
concrete values hold, and for every `n ≥ 1` the integer-division formula
equals the exact ceiling of `2n/3`. -/
theorem quorum_matches_spec :
    (∀ n, n < 3 → Oracle.quorum n = 3) ∧
    (∀ n, 3 ≤ n → Oracle.quorum n = (2 * n + 2) / 3) ∧
    Oracle.quorum 0 = 3 ∧ Oracle.quorum 1 = 3 ∧ Oracle.quorum 2 = 3 ∧
    Oracle.quorum 3 = 2 ∧ Oracle.quorum 4 = 3 ∧ Oracle.quorum 6 = 4 ∧
    Oracle.quorum 100 = 67 ∧
    (∀ n : ℕ, 1 ≤ n → (((2 * n + 2) / 3 : ℕ) : ℤ) = ⌈(2 * n : ℚ) / 3⌉) := by
  refine ⟨?_, ?_, by decide, by decide, by decide, by decide, by decide, by decide,
    by decide, ?_⟩
  · intro n h
    simp [Oracle.quorum, h]
  · intro n h
    have h3 : ¬ n < 3 := by omega
    simp [Oracle.quorum, h3, Nat.mul_comm]
  · intro n _hn
    have hd := Nat.div_add_mod (2 * n + 2) 3
    have hm : (2 * n + 2) % 3 < 3 := Nat.mod_lt _ (by norm_num)
    set q : ℕ := (2 * n + 2) / 3 with hq
    have h1 : 3 * q ≤ 2 * n + 2 := by omega
    have h2 : 2 * n ≤ 3 * q := by omega
    symm
    rw [Int.ceil_eq_iff]
    constructor
    · rw [lt_div_iff₀ (by norm_num : (0:ℚ) < 3)]
      push_cast
      have h1' : (3 : ℚ) * q ≤ 2 * n + 2 := by exact_mod_cast h1
      linarith
    · rw [div_le_iff₀ (by norm_num : (0:ℚ) < 3)]
      push_cast
      have h2' : (2 : ℚ) * n ≤ 3 * q := by exact_mod_cast h2
      linarith

/-- Witness for C1 at concrete inputs `n = 2` and `n = 5`. -/
theorem quorum_matches_spec_witness :
    Oracle.quorum 2 = 3 ∧ Oracle.quorum 5 = (2 * 5 + 2) / 3 ∧
    (((2 * 5 + 2) / 3 : ℕ) : ℤ) = ⌈(2 * 5 : ℚ) / 3⌉ :=
  ⟨quorum_matches_spec.1 2 (by norm_num),
   quorum_matches_spec.2.1 5 (by norm_num),
   quorum_matches_spec.2.2.2.2.2.2.2.2.2 5 (by norm_num)⟩

/-- Claim C4: a `submitPrice` call from an identity that is not a registry
member reverts with `"Not a node"`; no post-state is ever produced, so no
round state (in particular no submission count) is mutated. -/
theorem submit_not_registered (s : Oracle.State) (caller : Oracle.Addr) (coin : Oracle.Coin)
    (price now : Nat) (h : s.isNode caller = false) :
    Oracle.submitPrice s caller coin price now = .error Oracle.errNotANode ∧
    ∀ s' : Oracle.State, Oracle.submitPrice s caller coin price now ≠ .ok s' := by
  have he : Oracle.submitPrice s caller coin price now = .error Oracle.errNotANode := by
    rw [Oracle.submitPrice, if_neg (by simp [h])]
  refine ⟨he, fun s' hok => ?_⟩
  rw [he] at hok
  cases hok

/-- Witness for C4: the never-registered address 1 on the fresh contract. -/
theorem submit_not_registered_witness :
    Oracle.submitPrice Oracle.initState 1 Oracle.btc 50000 0 = .error Oracle.errNotANode ∧
    ∀ s' : Oracle.State, Oracle.submitPrice Oracle.initState 1 Oracle.btc 50000 0 ≠ .ok s' :=
  submit_not_registered Oracle.initState 1 Oracle.btc 50000 0 (by decide)

/-- Claim C5: a registered identity that already submitted for the current
round of a coin gets `"Already submitted for this round"` on its second
`submitPrice`; the reverted call yields no post-state, so the stored value
of the first submission (50000 in the scenario) is unchanged. -/
theorem submit_duplicate_rejected :
    (∀ (s : Oracle.State) (caller : Oracle.Addr) (coin : Oracle.Coin) (price now : Nat),
      s.isNode caller = true →
      s.hasSubmitted coin (s.rounds coin).id caller = true →
      Oracle.submitPrice s caller coin price now = .error Oracle.errAlreadySubmitted ∧
      ∀ s' : Oracle.State, Oracle.submitPrice s caller coin price now ≠ .ok s') ∧
    Oracle.c5mid.nodePrices Oracle.btc 0 1 = 50000 ∧
    Oracle.c5mid.hasSubmitted Oracle.btc 0 1 = true ∧
    Oracle.submitPrice Oracle.c5mid 1 Oracle.btc 51000 1 = .error Oracle.errAlreadySubmitted := by
  refine ⟨?_, by decide, by decide, rfl⟩
  intro s caller coin price now hreg hsub
  have he : Oracle.submitPrice s caller coin price now = .error Oracle.errAlreadySubmitted := by
    rw [Oracle.submitPrice, if_pos hreg, if_pos hsub]
  refine ⟨he, fun s' hok => ?_⟩
  rw [he] at hok
  cases hok

/-- Witness for C5 at the one-node scenario state. -/
theorem submit_duplicate_rejected_witness :
    Oracle.submitPrice Oracle.c5mid 1 Oracle.btc 99999 2 = .error Oracle.errAlreadySubmitted ∧
    ∀ s' : Oracle.State, Oracle.submitPrice Oracle.c5mid 1 Oracle.btc 99999 2 ≠ .ok s' :=
  submit_duplicate_rejected.1 Oracle.c5mid 1 Oracle.btc 99999 2 (by decide) (by decide)

/-- Claim C7: `removeNode` for a non-member reverts with
`"Node does not exist"` (no post-state, so membership and order list are
untouched); a successful removal swaps the last `nodes` element into the
removed index and truncates — after registering 1, 2, 3 and removing 1,
index 0 holds 3 and index 1 still holds 2. -/
theorem removeNode_spec :
    (∀ (s : Oracle.State) (caller : Oracle.Addr), s.isNode caller = false →
      Oracle.removeNode s caller = .error Oracle.errNodeMissing ∧
      ∀ s' : Oracle.State, Oracle.removeNode s caller ≠ .ok s') ∧
    (∀ (s : Oracle.State) (caller : Oracle.Addr), s.isNode caller = true →
      Oracle.removeNode s caller = .ok { s with
        isNode := upd1 s.isNode caller false
        nodes := Oracle.swapRemove s.nodes (s.nodes.indexOf caller) }) ∧
    Oracle.removeNode Oracle.initState 1 = .error Oracle.errNodeMissing ∧
    Oracle.reg3.nodes = [1, 2, 3] ∧
    (Oracle.okState (Oracle.removeNode Oracle.reg3 1)).nodes = [3, 2] ∧
    (Oracle.okState (Oracle.removeNode Oracle.reg3 1)).isNode 1 = false ∧
    (Oracle.okState (Oracle.removeNode Oracle.reg3 1)).isNode 2 = true ∧
    (Oracle.okState (Oracle.removeNode Oracle.reg3 1)).isNode 3 = true := by
  refine ⟨?_, ?_, rfl, by decide, by decide, by decide, by decide, by decide⟩
  · intro s caller h
    have he : Oracle.removeNode s caller = .error Oracle.errNodeMissing := by
      rw [Oracle.removeNode, if_neg (by simp [h])]
    refine ⟨he, fun s' hok => ?_⟩
    rw [he] at hok
    cases hok
  · intro s caller h
    rw [Oracle.removeNode, if_pos h]

/-- Witness for C7 at concrete states: removing 2 from the one-node
registry fails, removing 1 succeeds with the swap-remove equation. -/
theorem removeNode_spec_witness :
    (Oracle.removeNode Oracle.reg1 2 = .error Oracle.errNodeMissing ∧
      ∀ s' : Oracle.State, Oracle.removeNode Oracle.reg1 2 ≠ .ok s') ∧
    Oracle.removeNode Oracle.reg1 1 = .ok { Oracle.reg1 with
      isNode := upd1 Oracle.reg1.isNode 1 false
      nodes := Oracle.swapRemove Oracle.reg1.nodes (Oracle.reg1.nodes.indexOf 1) } :=
  ⟨removeNode_spec.1 Oracle.reg1 2 (by decide), removeNode_spec.2.1 Oracle.reg1 1 (by decide)⟩

/-- Claim C2: a submission that makes the round's count reach quorum
finalizes atomically — the published value becomes the floor-average of
the true submissions, a `PriceUpdated {coin, value, roundId}` notification
is appended, the round id advances by 1 and the count resets to 0; in the
3-reporter scenario, BTC submissions 50000 and 51000 finalize round 0 to
50500 with notification `(BTC, 50500, 0)`. -/
theorem quorum_submission_finalizes :
    (∀ (s : Oracle.State) (caller : Oracle.Addr) (coin : Oracle.Coin) (price now : Nat),
      s.isNode caller = true →
      s.nodes.Nodup →
      caller ∈ s.nodes →
      s.hasSubmitted coin (s.rounds coin).id caller = false →
      Oracle.getQuorum s ≤ (s.rounds coin).totalSubmissionCount + 1 →
      ∃ s' : Oracle.State,
        Oracle.submitPrice s caller coin price now = .ok s' ∧
        s'.currentPrices coin =
          (price + ((s.nodes.filter (fun a => s.hasSubmitted coin (s.rounds coin).id a)).map
              (fun a => s.nodePrices coin (s.rounds coin).id a)).sum) /
            ((s.nodes.filter (fun a => s.hasSubmitted coin (s.rounds coin).id a)).length + 1) ∧
        s'.events = s.events ++ [(coin,
          (price + ((s.nodes.filter (fun a => s.hasSubmitted coin (s.rounds coin).id a)).map
              (fun a => s.nodePrices coin (s.rounds coin).id a)).sum) /
            ((s.nodes.filter (fun a => s.hasSubmitted coin (s.rounds coin).id a)).length + 1),
          (s.rounds coin).id)] ∧
        s'.rounds coin = ⟨(s.rounds coin).id + 1, 0, now⟩) ∧
    Oracle.getQuorum Oracle.reg3 = 2 ∧
    (Oracle.c2mid.rounds Oracle.btc).id = 0 ∧
    (Oracle.submitPrice Oracle.c2mid 2 Oracle.btc 51000 9).isOk = true ∧
    (Oracle.okState (Oracle.submitPrice Oracle.c2mid 2 Oracle.btc 51000 9)).currentPrices
      Oracle.btc = 50500 ∧
    (Oracle.okState (Oracle.submitPrice Oracle.c2mid 2 Oracle.btc 51000 9)).events
      = [(Oracle.btc, 50500, 0)] ∧
    (Oracle.okState (Oracle.submitPrice Oracle.c2mid 2 Oracle.btc 51000 9)).rounds
      Oracle.btc = ⟨1, 0, 9⟩ := by
  refine ⟨?_, by decide, by decide, by decide, by decide, by decide, by decide⟩
  intro s caller coin price now hreg hnd hmem hsub hq
  exact submit_quorum_general s caller coin price now hreg hnd hmem hsub hq

/-- Witness for C2: the quorum-reaching second submission of the
3-reporter BTC scenario. -/
theorem quorum_submission_finalizes_witness :
    ∃ s' : Oracle.State,
      Oracle.submitPrice Oracle.c2mid 2 Oracle.btc 51000 9 = .ok s' ∧
      s'.currentPrices Oracle.btc =
        (51000 + ((Oracle.c2mid.nodes.filter
            (fun a => Oracle.c2mid.hasSubmitted Oracle.btc (Oracle.c2mid.rounds Oracle.btc).id a)).map
            (fun a => Oracle.c2mid.nodePrices Oracle.btc (Oracle.c2mid.rounds Oracle.btc).id a)).sum) /
          ((Oracle.c2mid.nodes.filter
            (fun a => Oracle.c2mid.hasSubmitted Oracle.btc (Oracle.c2mid.rounds Oracle.btc).id a)).length + 1) ∧
      s'.events = Oracle.c2mid.events ++ [(Oracle.btc,
        (51000 + ((Oracle.c2mid.nodes.filter
            (fun a => Oracle.c2mid.hasSubmitted Oracle.btc (Oracle.c2mid.rounds Oracle.btc).id a)).map
            (fun a => Oracle.c2mid.nodePrices Oracle.btc (Oracle.c2mid.rounds Oracle.btc).id a)).sum) /
          ((Oracle.c2mid.nodes.filter
            (fun a => Oracle.c2mid.hasSubmitted Oracle.btc (Oracle.c2mid.rounds Oracle.btc).id a)).length + 1),
        (Oracle.c2mid.rounds Oracle.btc).id)] ∧
      s'.rounds Oracle.btc = ⟨(Oracle.c2mid.rounds Oracle.btc).id + 1, 0, 9⟩ :=
  quorum_submission_finalizes.1 Oracle.c2mid 2 Oracle.btc 51000 9
    (by decide) (by decide) (by decide) (by decide) (by decide)

/-- Claim C6: while the submission count stays below quorum, an accepted
submission only records the price, sets the submitted flag and increments
the count — published values, events, registry, round id and timestamps
are all unchanged; with 4 reporters (quorum 3) and only 2 submissions the
BTC published value stays 0 and the round id stays 0. -/
theorem below_quorum_frame :
    (∀ (s : Oracle.State) (caller : Oracle.Addr) (coin : Oracle.Coin) (price now : Nat),
      s.isNode caller = true →
      s.hasSubmitted coin (s.rounds coin).id caller = false →
      (s.rounds coin).totalSubmissionCount + 1 < Oracle.getQuorum s →
      ∃ s' : Oracle.State,
        Oracle.submitPrice s caller coin price now = .ok s' ∧
        s'.currentPrices = s.currentPrices ∧
        s'.events = s.events ∧
        s'.nodes = s.nodes ∧
        s'.isNode = s.isNode ∧
        (s'.rounds coin).id = (s.rounds coin).id ∧
        (s'.rounds coin).totalSubmissionCount = (s.rounds coin).totalSubmissionCount + 1 ∧
        (s'.rounds coin).lastUpdatedAt = (s.rounds coin).lastUpdatedAt ∧
        (∀ c : Oracle.Coin, c ≠ coin → s'.rounds c = s.rounds c) ∧
        s'.nodePrices coin (s.rounds coin).id caller = price ∧
        s'.hasSubmitted coin (s.rounds coin).id caller = true) ∧
    Oracle.getQuorum Oracle.reg4 = 3 ∧
    Oracle.c6two.currentPrices Oracle.btc = 0 ∧
    (Oracle.c6two.rounds Oracle.btc).id = 0 ∧
    (Oracle.c6two.rounds Oracle.btc).totalSubmissionCount = 2 ∧
    Oracle.c6two.events = [] := by
  refine ⟨?_, by decide, by decide, by decide, by decide, by decide⟩
  intro s caller coin price now hreg hsub hlt
  set rid := (s.rounds coin).id with hrid
  set s1 : Oracle.State := { s with
    nodePrices := upd3 s.nodePrices coin rid caller price
    hasSubmitted := upd3 s.hasSubmitted coin rid caller true
    rounds := upd1 s.rounds coin
      { s.rounds coin with totalSubmissionCount := (s.rounds coin).totalSubmissionCount + 1 } }
    with hs1
  have hstep : Oracle.submitPrice s caller coin price now = .ok s1 := by
    rw [Oracle.submitPrice, if_pos hreg, if_neg (by simp [hsub, hrid])]
    rw [if_neg (by simpa [Oracle.getQuorum, hs1] using Nat.not_le.mpr hlt)]
  refine ⟨s1, hstep, rfl, rfl, rfl, rfl, ?_, ?_, ?_, ?_, ?_, ?_⟩
  · simp [hs1, upd1]
  · simp [hs1, upd1]
  · simp [hs1, upd1]
  · intro c hc
    simp [hs1, upd1_ne _ _ _ _ hc]
  · simp [hs1]
  · simp [hs1]

/-- Witness for C6: the second below-quorum submission of the 4-reporter
scenario. -/
theorem below_quorum_frame_witness :
    ∃ s' : Oracle.State,
      Oracle.submitPrice Oracle.c6one 2 Oracle.btc 51000 0 = .ok s' ∧
      s'.currentPrices = Oracle.c6one.currentPrices ∧
      s'.events = Oracle.c6one.events ∧
      s'.nodes = Oracle.c6one.nodes ∧
      s'.isNode = Oracle.c6one.isNode ∧
      (s'.rounds Oracle.btc).id = (Oracle.c6one.rounds Oracle.btc).id ∧
      (s'.rounds Oracle.btc).totalSubmissionCount
        = (Oracle.c6one.rounds Oracle.btc).totalSubmissionCount + 1 ∧
      (s'.rounds Oracle.btc).lastUpdatedAt = (Oracle.c6one.rounds Oracle.btc).lastUpdatedAt ∧
      (∀ c : Oracle.Coin, c ≠ Oracle.btc → s'.rounds c = Oracle.c6one.rounds c) ∧
      s'.nodePrices Oracle.btc (Oracle.c6one.rounds Oracle.btc).id 2 = 51000 ∧
      s'.hasSubmitted Oracle.btc (Oracle.c6one.rounds Oracle.btc).id 2 = true :=
  below_quorum_frame.1 Oracle.c6one 2 Oracle.btc 51000 0 (by decide) (by decide) (by decide)

/-- Claim C3 (amended): `_finalizePrice` iterates only the current
`nodes` array, so the recorded submission of a reporter that was removed
before finalization is NOT included in the sum or the count — the
published value and the emitted events are the same as if the removed
reporter's record were erased; and any later `submitPrice` by the
unregistered identity reverts with `"Not a node"`.  The 4-reporter
scenario: node 1 submits 100 for BTC, unregisters, node 2's submission of
200 reaches quorum and finalizes to 200 (not 150). -/
theorem removed_reporter_excluded :
    (∀ (s : Oracle.State) (coin : Oracle.Coin) (roundId now : Nat) (r : Oracle.Addr),
      r ∉ s.nodes →
      (Oracle.finalizePrice s coin roundId now).currentPrices =
        (Oracle.finalizePrice { s with
            nodePrices := upd3 s.nodePrices coin roundId r 0
            hasSubmitted := upd3 s.hasSubmitted coin roundId r false } coin roundId now).currentPrices ∧
      (Oracle.finalizePrice s coin roundId now).events =
        (Oracle.finalizePrice { s with
            nodePrices := upd3 s.nodePrices coin roundId r 0
            hasSubmitted := upd3 s.hasSubmitted coin roundId r false } coin roundId now).events) ∧
    (∀ (s : Oracle.State) (r : Oracle.Addr) (coin : Oracle.Coin) (price now : Nat),
      s.isNode r = false →
      Oracle.submitPrice s r coin price now = .error Oracle.errNotANode) ∧
    Oracle.c3rm.nodes = [4, 2, 3] ∧
    Oracle.c3rm.isNode 1 = false ∧
    Oracle.c3rm.hasSubmitted Oracle.btc 0 1 = true ∧
    Oracle.c3rm.nodePrices Oracle.btc 0 1 = 100 ∧
    Oracle.getQuorum Oracle.c3rm = 2 ∧
    (Oracle.okState (Oracle.submitPrice Oracle.c3rm 2 Oracle.btc 200 5)).currentPrices
      Oracle.btc = 200 ∧
    (Oracle.okState (Oracle.submitPrice Oracle.c3rm 2 Oracle.btc 200 5)).events
      = [(Oracle.btc, 200, 0)] ∧
    Oracle.submitPrice Oracle.c3rm 1 Oracle.btc 123 6 = .error Oracle.errNotANode := by
  refine ⟨?_, ?_, by decide, by decide, by decide, by decide, by decide, by decide,
    by decide, rfl⟩
  · intro s coin roundId now r hr
    have hfil : s.nodes.filter
          (fun a => upd3 s.hasSubmitted coin roundId r false coin roundId a)
        = s.nodes.filter (fun a => s.hasSubmitted coin roundId a) := by
      apply List.filter_congr
      intro a ha
      have har : a ≠ r := fun h => hr (h ▸ ha)
      rw [upd3_fix2, if_neg har]
    have hmap : (s.nodes.filter (fun a => s.hasSubmitted coin roundId a)).map
          (fun a => upd3 s.nodePrices coin roundId r 0 coin roundId a)
        = (s.nodes.filter (fun a => s.hasSubmitted coin roundId a)).map
          (fun a => s.nodePrices coin roundId a) := by
      apply List.map_congr_left
      intro a ha
      have har : a ≠ r := fun h => hr (h ▸ (List.mem_filter.mp ha).1)
      rw [upd3_fix2, if_neg har]
    constructor <;>
      · rw [Oracle.finalizePrice, Oracle.finalizePrice]
        simp only [hfil, hmap]
        by_cases hc : (s.nodes.filter (fun a => s.hasSubmitted coin roundId a)).length = 0
        · rw [if_pos hc, if_pos hc]
        · rw [if_neg hc, if_neg hc]
  · intro s r coin price now h
    rw [Oracle.submitPrice, if_neg (by simp [h])]

/-- Counterexample to C3 as stated: in the scenario, the removed node 1
still has a recorded round-0 BTC submission of 100 (`submitted = true`),
yet finalization publishes 200 — only node 2's value — while inclusion of
the removed reporter's submission would give `(100 + 200) / 2 = 150`. -/
theorem removed_reporter_counted_cex :
    Oracle.c3rm.hasSubmitted Oracle.btc 0 1 = true ∧
    Oracle.c3rm.nodePrices Oracle.btc 0 1 = 100 ∧
    Oracle.getQuorum Oracle.c3rm = 2 ∧
    (Oracle.okState (Oracle.submitPrice Oracle.c3rm 2 Oracle.btc 200 5)).rounds Oracle.btc
      = ⟨1, 0, 5⟩ ∧
    (Oracle.okState (Oracle.submitPrice Oracle.c3rm 2 Oracle.btc 200 5)).currentPrices
      Oracle.btc = 200 ∧
    ((100 : Nat) + 200) / 2 = 150 ∧
    (200 : Nat) ≠ 150 := by
  refine ⟨by decide, by decide, by decide, by decide, by decide, by decide, by decide⟩

/-- Witness for C3 (amended) at the concrete scenario state: erasing the
removed reporter's record does not change what finalization publishes. -/
theorem removed_reporter_excluded_witness :
    ((Oracle.finalizePrice Oracle.c3rm Oracle.btc 0 7).currentPrices =
      (Oracle.finalizePrice { Oracle.c3rm with
          nodePrices := upd3 Oracle.c3rm.nodePrices Oracle.btc 0 1 0
          hasSubmitted := upd3 Oracle.c3rm.hasSubmitted Oracle.btc 0 1 false }
        Oracle.btc 0 7).currentPrices ∧
    (Oracle.finalizePrice Oracle.c3rm Oracle.btc 0 7).events =
      (Oracle.finalizePrice { Oracle.c3rm with
          nodePrices := upd3 Oracle.c3rm.nodePrices Oracle.btc 0 1 0
          hasSubmitted := upd3 Oracle.c3rm.hasSubmitted Oracle.btc 0 1 false }
        Oracle.btc 0 7).events) ∧
    Oracle.submitPrice Oracle.c3rm 1 Oracle.btc 123 6 = .error Oracle.errNotANode :=
  ⟨removed_reporter_excluded.1 Oracle.c3rm Oracle.btc 0 7 1 (by decide),
   removed_reporter_excluded.2.1 Oracle.c3rm 1 Oracle.btc 123 6 (by decide)⟩

/-- Claim C8: the submission loop returns exactly when its run context is
cancelled — over any finite observation of the ticker/cancellation
channels, the loop has returned iff a cancel event occurred, and whether
it returns is independent of the per-asset submission outcomes (every
fetch/submission/confirmation failure is merely logged and the loop
proceeds). -/
theorem loop_returns_iff_cancelled :
    (∀ (coins : List String) (outcomes : Nat → String → Except String Unit)
        (events : List NodeApp.LoopEvent),
      (NodeApp.startPriceSubmissionLoop coins outcomes events).returned = true ↔
        NodeApp.LoopEvent.cancel ∈ events) ∧
    (∀ (coins : List String) (o1 o2 : Nat → String → Except String Unit)
        (events : List NodeApp.LoopEvent),
      (NodeApp.startPriceSubmissionLoop coins o1 events).returned =
        (NodeApp.startPriceSubmissionLoop coins o2 events).returned) := by
  constructor
  · intro coins outcomes events
    simpa [NodeApp.startPriceSubmissionLoop] using
      runLoopEvents_returned coins outcomes events 1
  · intro coins o1 o2 events
    have h1 : (NodeApp.startPriceSubmissionLoop coins o1 events).returned = true ↔
        NodeApp.LoopEvent.cancel ∈ events := by
      simpa [NodeApp.startPriceSubmissionLoop] using runLoopEvents_returned coins o1 events 1
    have h2 : (NodeApp.startPriceSubmissionLoop coins o2 events).returned = true ↔
        NodeApp.LoopEvent.cancel ∈ events := by
      simpa [NodeApp.startPriceSubmissionLoop] using runLoopEvents_returned coins o2 events 1
    have h3 := h1.trans h2.symm
    cases hb1 : (NodeApp.startPriceSubmissionLoop coins o1 events).returned <;>
      cases hb2 : (NodeApp.startPriceSubmissionLoop coins o2 events).returned <;>
      simp_all

/-- Claim C9: `EnsureRegistered` is a no-op returning at once when the
agent is already a registry member (the result does not depend on any
transaction machinery); when the identity is unregistered and the
registration transaction reverts or cannot be confirmed, registration
fails and the agent never reaches its submission loop. -/
theorem ensureRegistered_noop_or_fatal :
    (∀ env : NodeApp.ChainEnv, env.isNodeQuery = .ok true →
      NodeApp.ensureRegistered env = .ok NodeApp.RegResult.alreadyRegistered) ∧
    (∀ env : NodeApp.ChainEnv, env.isNodeQuery = .ok true →
      NodeApp.agentStartsLoop env = true) ∧
    (∀ (env : NodeApp.ChainEnv) (r : NodeApp.Receipt), env.isNodeQuery = .ok false →
      env.waitMined = .ok r → r.status ≠ 1 →
      (NodeApp.ensureRegistered env).isOk = false ∧ NodeApp.agentStartsLoop env = false) ∧
    (∀ (env : NodeApp.ChainEnv) (e : String), env.isNodeQuery = .ok false →
      env.waitMined = .error e →
      (NodeApp.ensureRegistered env).isOk = false ∧ NodeApp.agentStartsLoop env = false) ∧
    (∀ env : NodeApp.ChainEnv, (NodeApp.ensureRegistered env).isOk = false →
      NodeApp.agentStartsLoop env = false) := by
  have hfail : ∀ env : NodeApp.ChainEnv, (NodeApp.ensureRegistered env).isOk = false →
      NodeApp.agentStartsLoop env = false := by
    intro env h
    rw [agentStartsLoop_eq, h]
  have hrevert : ∀ (env : NodeApp.ChainEnv) (r : NodeApp.Receipt),
      env.isNodeQuery = .ok false → env.waitMined = .ok r → r.status ≠ 1 →
      (NodeApp.ensureRegistered env).isOk = false := by
    intro env r h hw hs
    rcases hg : env.suggestGasPrice with e1 | v1 <;>
      rcases hn : env.pendingNonce with e2 | v2 <;>
      rcases hc : env.chainId with e3 | v3 <;>
      rcases ht : env.newTransactor with e4 | v4 <;>
      rcases ha : env.addNodeTransact with e5 | v5 <;>
      simp [NodeApp.ensureRegistered, h, hw, hg, hn, hc, ht, ha, hs, Except.isOk, Except.toBool]
  have hnoconf : ∀ (env : NodeApp.ChainEnv) (e : String),
      env.isNodeQuery = .ok false → env.waitMined = .error e →
      (NodeApp.ensureRegistered env).isOk = false := by
    intro env e h hw
    rcases hg : env.suggestGasPrice with e1 | v1 <;>
      rcases hn : env.pendingNonce with e2 | v2 <;>
      rcases hc : env.chainId with e3 | v3 <;>
      rcases ht : env.newTransactor with e4 | v4 <;>
      rcases ha : env.addNodeTransact with e5 | v5 <;>
      simp [NodeApp.ensureRegistered, h, hw, hg, hn, hc, ht, ha, Except.isOk, Except.toBool]
  have hnoop : ∀ env : NodeApp.ChainEnv, env.isNodeQuery = .ok true →
      NodeApp.ensureRegistered env = .ok NodeApp.RegResult.alreadyRegistered := by
    intro env h
    rw [NodeApp.ensureRegistered, h]
  refine ⟨hnoop, ?_, ?_, ?_, hfail⟩
  · intro env h
    rw [agentStartsLoop_eq, hnoop env h]
    rfl
  · intro env r h hw hs
    exact ⟨hrevert env r h hw hs, hfail env (hrevert env r h hw hs)⟩
  · intro env e h hw
    exact ⟨hnoconf env e h hw, hfail env (hnoconf env e h hw)⟩

/-- Witness for C9 at concrete environments: an already-registered agent
is a no-op and starts its loop; an agent whose registration transaction
reverts fails and never starts its loop. -/
theorem ensureRegistered_noop_or_fatal_witness :
    NodeApp.ensureRegistered NodeApp.envAlready = .ok NodeApp.RegResult.alreadyRegistered ∧
    NodeApp.agentStartsLoop NodeApp.envAlready = true ∧
    (NodeApp.ensureRegistered NodeApp.envReverted).isOk = false ∧
    NodeApp.agentStartsLoop NodeApp.envReverted = false :=
  ⟨ensureRegistered_noop_or_fatal.1 NodeApp.envAlready rfl,
   ensureRegistered_noop_or_fatal.2.1 NodeApp.envAlready rfl,
   (ensureRegistered_noop_or_fatal.2.2.1 NodeApp.envReverted ⟨0, 2, 96547⟩ rfl rfl
     (by decide)).1,
   (ensureRegistered_noop_or_fatal.2.2.1 NodeApp.envReverted ⟨0, 2, 96547⟩ rfl rfl
     (by decide)).2⟩

/-- Claim C10: `LoadConfig` returns the coin list `["ethereum"]` and the
submission interval 20 for every environment — these two fields are
hard-coded — while the RPC URL, contract address, private key and HTTP
port do come from the environment (shown by an environment that changes
all four away from their defaults). -/
theorem loadConfig_fixed_assets :
    (∀ getenv : String → String,
      (NodeApp.loadConfig getenv).coins = [NodeApp.coinEthereum] ∧
      (NodeApp.loadConfig getenv).submissionInterval = 20) ∧
    (NodeApp.loadConfig NodeApp.envAllSet).rpcUrl = NodeApp.customValue ∧
    (NodeApp.loadConfig NodeApp.envAllSet).contractAddress = NodeApp.customValue ∧
    (NodeApp.loadConfig NodeApp.envAllSet).privateKey = NodeApp.customValue ∧
    (NodeApp.loadConfig NodeApp.envAllSet).httpPort = NodeApp.customValue ∧
    (NodeApp.loadConfig NodeApp.envUnset).rpcUrl = NodeApp.defaultRpcUrl ∧
    (NodeApp.loadConfig NodeApp.envUnset).contractAddress = NodeApp.defaultContractAddress ∧
    (NodeApp.loadConfig NodeApp.envUnset).privateKey = NodeApp.defaultPrivateKey ∧
    (NodeApp.loadConfig NodeApp.envUnset).httpPort = NodeApp.defaultHttpPort ∧
    NodeApp.customValue ≠ NodeApp.defaultRpcUrl ∧
    NodeApp.customValue ≠ NodeApp.defaultContractAddress ∧
    NodeApp.customValue ≠ NodeApp.defaultPrivateKey ∧
    NodeApp.customValue ≠ NodeApp.defaultHttpPort ∧
    NodeApp.customValue ≠ "" := by
  refine ⟨fun getenv => ⟨rfl, rfl⟩, by decide, by decide, by decide, by decide,
    by decide, by decide, by decide, by decide, by decide, by decide, by decide,
    by decide, by decide⟩
